import Mathlib

/-!
Verification of the TC001 trailcam thermal-tracker pipeline (src/main.py).

This file shallowly embeds the pure data and control logic of the program:
the module-level configuration constants, the stacked-layout frame decoder
(decode_visual / decode_thermal_raw), the per-pixel hot-mask and background
update of detect_hot_objects, the blob merge resolver (merge_detections and
its helpers _rects_intersect / _union_bbox), the greedy tracker
(update_tracks), and one iteration of the main loop as a state-transition
function (loopStep) over an explicit LoopState.

Modelling conventions:
- numpy float32 arithmetic is modelled with exact rationals;
- machine integers carry no overflow here (uint16 thermal values cast to
  int32 and the 8-bit-to-16-bit recombination stay far below every bound),
  so Nat / Int / Rat are used directly;
- cv2 morphology and contour extraction (the middle of detect_hot_objects),
  the cv2 VideoWriter codec probing, image encoding, and the numpy RNG
  track colours are external library effects: the loop model receives the
  contour output as an oracle input (Env.dets) and the writer-open outcomes
  as booleans (Env.rawOpenOk / Env.trkOpenOk), while every piece of logic
  that is the program's own code is embedded from the source;
- video sinks are modelled as the list of frames written to them since
  open; telemetry writes (write_status) as an appended log of the records
  written; snapshot photo writes as an appended list of the frames saved.
-/

/-- Sensor width in pixels (src/main.py line 13). -/
def WIDTH : ℕ := 256

/-- Sensor height in pixels (src/main.py line 14). -/
def HEIGHT : ℕ := 192

/-- Capture frame rate (src/main.py line 16). -/
def CAMERA_FPS : ℕ := 25

/-- Configured hot-threshold in degrees Celsius (src/main.py line 22). -/
def DELTA_TEMP_C : ℚ := 3 / 2

/-- Truncation toward zero, the semantics of Python int() and of a numpy
cast to an integer dtype. -/
def ratTrunc (q : ℚ) : ℤ := if 0 ≤ q then ⌊q⌋ else ⌈q⌉

/-- Raw-unit hot threshold: int(DELTA_TEMP_C * 64) (src/main.py line 23);
64 raw units per degree is the fixed scale factor. Evaluates to 96. -/
def THERMAL_DELTA_RAW : ℤ := ratTrunc (DELTA_TEMP_C * 64)

/-- Background blend constant (src/main.py line 25). -/
def BG_UPDATE_ALPHA : ℚ := 1 / 100

/-- Centroid-distance merge threshold in pixels (src/main.py line 27). -/
def SPLIT_DISTANCE_PX : ℚ := 20

/-- Pre-roll length in seconds (src/main.py line 29). -/
def PRE_ROLL_SEC : ℕ := 10

/-- Post-roll length in seconds (src/main.py line 30). -/
def POST_ROLL_SEC : ℚ := 10

/-- Minimum interval between periodic snapshot photos (src/main.py line 31). -/
def PHOTO_INTERVAL_SEC : ℚ := 20

/-- Track forget window, set equal to the post-roll duration
(src/main.py line 33). -/
def TRACK_FORGET_SEC : ℚ := POST_ROLL_SEC

/-- Maximum squared centroid distance for a track to claim a detection
(src/main.py line 34). -/
def TRACK_MAX_DIST : ℚ := 40 * 40

/-- Pre-roll ring-buffer capacity: PRE_ROLL_SEC * CAMERA_FPS frames
(src/main.py line 413). -/
def PREBUF_CAP : ℕ := PRE_ROLL_SEC * CAMERA_FPS

/-- An 8-bit visual plane, as a grid of byte values indexed (row, col). -/
abbrev Visual : Type := ℕ → ℕ → ℕ

/-- A 16-bit thermal plane in raw sensor units, indexed (row, col). -/
abbrev Thermal : Type := ℕ → ℕ → ℕ

/-- The floating background model, indexed (row, col); numpy float32
values are modelled as exact rationals. -/
abbrev Background : Type := ℕ → ℕ → ℚ

/-- Per-pixel hot test of detect_hot_objects (src/main.py lines 177-178):
delta = thermal.astype(int32) - background.astype(int32); hot iff
delta > THERMAL_DELTA_RAW. The cast of the float background to int32
truncates toward zero. -/
def hotPixel (tpx : ℕ) (bpx : ℚ) : Bool :=
  decide (THERMAL_DELTA_RAW < (tpx : ℤ) - ratTrunc bpx)

/-- Per-pixel background update of detect_hot_objects (src/main.py
lines 180-182): cold pixels blend toward the thermal value with
coefficient BG_UPDATE_ALPHA, hot pixels keep the old background. -/
def bgUpdatePixel (tpx : ℕ) (bpx : ℚ) : ℚ :=
  if hotPixel tpx bpx then bpx
  else (1 - BG_UPDATE_ALPHA) * bpx + BG_UPDATE_ALPHA * (tpx : ℚ)

/-- The background model returned by detect_hot_objects, pointwise
(src/main.py lines 180-182). The detections that detect_hot_objects also
returns come from cv2 morphology and contour extraction on the hot mask
(lines 184-197), an external library computation that the loop model
receives as an oracle input. -/
def updateBackground (thermal : Thermal) (bg : Background) : Background :=
  fun r c => bgUpdatePixel (thermal r c) (bg r c)

/-- An axis-aligned bounding box (x, y, w, h), as produced by
cv2.boundingRect: integer coordinates. -/
structure Box where
  x : ℤ
  y : ℤ
  w : ℤ
  h : ℤ
deriving DecidableEq

/-- A detection: bounding box plus centroid, as built by
detect_hot_objects (src/main.py line 195). -/
structure Det where
  box : Box
  cx : ℚ
  cy : ℚ
deriving DecidableEq

/-- x coordinate of a box center: x + w / 2 (src/main.py line 243). -/
def centerX (b : Box) : ℚ := (b.x : ℚ) + (b.w : ℚ) / 2

/-- y coordinate of a box center: y + h / 2 (src/main.py line 244). -/
def centerY (b : Box) : ℚ := (b.y : ℚ) + (b.h : ℚ) / 2

/-- _rects_intersect (src/main.py lines 203-208): padded closed boxes
intersect or touch. -/
def rects_intersect (b1 b2 : Box) (pad : ℤ) : Bool :=
  !(decide (b1.x + b1.w + pad < b2.x - pad) ||
    decide (b2.x + b2.w + pad < b1.x - pad) ||
    decide (b1.y + b1.h + pad < b2.y - pad) ||
    decide (b2.y + b2.h + pad < b1.y - pad))

/-- _union_bbox (src/main.py lines 210-219). -/
def union_bbox (b1 b2 : Box) : Box :=
  let x := min b1.x b2.x
  let y := min b1.y b2.y
  let xe := max (b1.x + b1.w) (b2.x + b2.w)
  let ye := max (b1.y + b1.h) (b2.y + b2.h)
  ⟨x, y, xe - x, ye - y⟩

/-- The closeness test of merge_detections (src/main.py lines 243-249):
sqrt(dx^2 + dy^2) < SPLIT_DISTANCE_PX on box centers, stated equivalently
on squares (both sides are nonnegative, so squaring is exact). -/
def closeCenters (b1 b2 : Box) : Bool :=
  decide ((centerX b1 - centerX b2) * (centerX b1 - centerX b2) +
          (centerY b1 - centerY b2) * (centerY b1 - centerY b2) <
          SPLIT_DISTANCE_PX * SPLIT_DISTANCE_PX)

/-- The merge condition of merge_detections (src/main.py line 251):
close or overlapping with zero padding. -/
def mergeCond (b1 b2 : Box) : Bool := closeCenters b1 b2 || rects_intersect b1 b2 0

/-- The inner loop of one merge pass (src/main.py lines 238-254): scan
the not-yet-consumed detections after position i in order, absorbing into
the accumulating box every one that is close to it or overlaps it.
Returns the accumulated box, the detections left unconsumed (in order),
and whether any absorption happened. -/
def absorb (b : Box) : List Det → Box × List Det × Bool
  | [] => (b, [], false)
  | d :: rest =>
    if mergeCond b d.box then
      let r := absorb (union_bbox b d.box) rest
      (r.1, r.2.1, true)
    else
      let r := absorb b rest
      (r.1, d :: r.2.1, r.2.2)

/-- A detection rebuilt from a final box, centroid recomputed from the
box (src/main.py lines 256-263). -/
def mkDet (b : Box) : Det := ⟨b, centerX b, centerY b⟩

/-- One full pass of merge_detections (src/main.py lines 227-265),
fuelled by the number of outer-loop iterations still allowed. The Python
outer loop runs once per input position, so fuel = input length makes the
fuel-exhausted branch unreachable (each recursive call consumes one fuel
and, by absorb, at least one list element). -/
def onePassAux : ℕ → List Det → List Det × Bool
  | 0, l => (l, false)
  | _ + 1, [] => ([], false)
  | n + 1, d :: rest =>
    let r := absorb d.box rest
    let o := onePassAux n r.2.1
    (mkDet r.1 :: o.1, r.2.2 || o.2)

/-- One pass of the merge loop over a detection list. -/
def onePass (l : List Det) : List Det × Bool := onePassAux l.length l

/-- The while-changed loop of merge_detections (src/main.py lines
224-265), fuelled by the number of passes still allowed. Every pass that
reports a change strictly shrinks the list, so length + 1 passes always
reach an unchanged pass; the fuel-exhausted branch is unreachable from
merge_detections (this is proved in merge lemmas below). -/
def mergeLoopAux : ℕ → List Det → List Det
  | 0, l => l
  | n + 1, l =>
    let p := onePass l
    if p.2 = true then mergeLoopAux n p.1 else p.1

/-- merge_detections (src/main.py lines 221-267). -/
def merge_detections (l : List Det) : List Det := mergeLoopAux (l.length + 1) l

/-- Box containment predicate, used to state that a unioned box covers
the boxes it absorbed. -/
def boxContains (b1 b2 : Box) : Bool :=
  decide (b1.x ≤ b2.x ∧ b1.y ≤ b2.y ∧
          b2.x + b2.w ≤ b1.x + b1.w ∧ b2.y + b2.h ≤ b1.y + b1.h)

/-- A track record (src/main.py lines 307-313): centroid, box and
last-seen timestamp. The display colour (numpy RNG, line 273-275) plays
no role in any claim and is not modelled. -/
structure Track where
  cx : ℚ
  cy : ℚ
  box : Box
  last : ℚ
deriving DecidableEq

/-- Squared centroid distance between a track and a detection
(src/main.py lines 287-289). -/
def distSq (t : Track) (d : Det) : ℚ :=
  (d.cx - t.cx) * (d.cx - t.cx) + (d.cy - t.cy) * (d.cy - t.cy)

/-- Best-detection search for one track (src/main.py lines 282-292):
scan detections in index order, skip indices already claimed, keep the
first strict improvement below TRACK_MAX_DIST. Returns the claimed
(index, detection) if any. -/
def bestFold (t : Track) (used : List ℕ) (dets : List Det) : Option (ℕ × Det) :=
  (dets.enum.foldl
    (fun (acc : Option (ℕ × Det) × ℚ) p =>
      if p.1 ∈ used then acc
      else if distSq t p.2 < acc.2 then (some p, distSq t p.2) else acc)
    (none, TRACK_MAX_DIST)).1

/-- The matching loop of update_tracks (src/main.py lines 281-299):
tracks are visited in insertion order; a matched track is updated to the
detection's centroid and box with last-seen = now and is appended to the
visible list. Returns (updated track list, claimed indices, visible). -/
def matchLoop (dets : List Det) (now : ℚ) :
    List (ℕ × Track) → List ℕ → List (ℕ × Track) × List ℕ × List (ℕ × Track)
  | [], used => ([], used, [])
  | (tid, t) :: rest, used =>
    match bestFold t used dets with
    | some p =>
      let t2 : Track := ⟨p.2.cx, p.2.cy, p.2.box, now⟩
      let r := matchLoop dets now rest (p.1 :: used)
      ((tid, t2) :: r.1, r.2.1, (tid, t2) :: r.2.2)
    | none =>
      let r := matchLoop dets now rest used
      ((tid, t) :: r.1, r.2.1, r.2.2)

/-- The spawn loop of update_tracks (src/main.py lines 301-315):
unclaimed detections create new tracks with consecutive ids starting at
the given counter. Returns (new tracks, their visible entries). -/
def spawnLoop (now : ℚ) (used : List ℕ) :
    List (ℕ × Det) → ℕ → List (ℕ × Track) × List (ℕ × Track)
  | [], _ => ([], [])
  | (i, d) :: rest, next =>
    if i ∈ used then spawnLoop now used rest next
    else
      let t : Track := ⟨d.cx, d.cy, d.box, now⟩
      let r := spawnLoop now used rest (next + 1)
      ((next, t) :: r.1, (next, t) :: r.2)

/-- update_tracks (src/main.py lines 277-321). The Python dict of tracks
is modelled as an insertion-ordered association list, matching dict
iteration order; the final deletion loop removes every track with
now - last > TRACK_FORGET_SEC. -/
def update_tracks (dets : List Det) (tracks : List (ℕ × Track)) (now : ℚ) :
    List (ℕ × Track) × List (ℕ × Track) :=
  let m := matchLoop dets now tracks []
  let nid := (tracks.map Prod.fst).foldl max 0 + 1
  let sp := spawnLoop now m.2.1 dets.enum nid
  let all := m.1 ++ sp.1
  (all.filter (fun p => decide (now - p.2.last ≤ TRACK_FORGET_SEC)), m.2.2 ++ sp.2)

/-- A raw wire frame: height, width, channel count, and the byte value at
(row, col, channel). -/
structure RawFrame where
  h : ℕ
  w : ℕ
  c : ℕ
  px : ℕ → ℕ → ℕ → ℕ

/-- The stacked-layout branch of decode_visual (src/main.py lines
133-137): the visual plane is channel 0 of the top half. -/
def decode_visual (f : RawFrame) : Visual := fun r c => f.px r c 0

/-- The stacked-layout branch of decode_thermal_raw (src/main.py lines
154-159): each thermal pixel combines the two byte channels of the bottom
half as low + (high << 8); with byte values below 256 this addition never
carries, so it equals the bitwise or of the claim. -/
def decode_thermal_raw (f : RawFrame) : Thermal :=
  fun r c => f.px (HEIGHT + r) c 0 + f.px (HEIGHT + r) c 1 * 256

/-- The decode step of one loop iteration (src/main.py lines 445-451):
decode the frame and check the visual shape, skipping the frame on any
failure. Frames in the stacked layout (h >= 2*HEIGHT, w = WIDTH, at least
two channels) decode to full HEIGHT x WIDTH planes; the packed
single-row layout and the byte-reinterpretation fallback are not
modelled and are mapped to the failure (skip) outcome, which is the
behaviour the skip claims are about. -/
def decodeFrame (f : RawFrame) : Option (Visual × Thermal) :=
  if HEIGHT * 2 ≤ f.h ∧ f.w = WIDTH ∧ 2 ≤ f.c then
    some (decode_visual f, decode_thermal_raw f)
  else none

/-- A frame as written to a video sink: either the plain upscaled visual
frame (upscale_gray_to_bgr, src/main.py line 352) or the annotated copy
carrying the boxes and ids of the visible tracks (src/main.py lines
540-575). The cv2 pixel rendering is not modelled; the constructor
records exactly the data the rendering depends on. -/
inductive VFrame where
  | plain : Visual → VFrame
  | annot : Visual → List (ℕ × Track) → VFrame

/-- One telemetry record as written by write_status (src/main.py lines
363-377); the wall-clock ts field is not modelled. -/
structure StatusMsg where
  recording : Bool
  events : ℕ
deriving DecidableEq

/-- The cross-iteration state of the main loop (src/main.py lines
408-432): background model, track set, pre-roll buffer, recording flag,
the two sink handles (None or the list of frames written since open),
timers, event counter, and the histories of telemetry records and
snapshot photos written. -/
structure LoopState where
  background : Background
  tracks : List (ℕ × Track)
  prebuffer : List Visual
  recording : Bool
  raw_out : Option (List VFrame)
  trk_out : Option (List VFrame)
  last_seen : ℚ
  last_photo_time : ℚ
  events_count : ℕ
  statusLog : List StatusMsg
  photos : List Visual

/-- The per-iteration environment: the wall clock, the capture read
result, the presence of the background-reset marker, the outcomes of the
two VideoWriter open attempts (make_writer, src/main.py lines 327-350),
and the detection list produced by the cv2 contour extraction inside
detect_hot_objects. -/
structure Env where
  now : ℚ
  capture : Option RawFrame
  resetFlag : Bool
  rawOpenOk : Bool
  trkOpenOk : Bool
  dets : List Det

/-- Bounded append of collections.deque(maxlen = cap) (src/main.py line
413): when the buffer is full the oldest element is dropped. -/
def pushBounded {α : Type} (cap : ℕ) (l : List α) (a : α) : List α :=
  if l.length < cap then l ++ [a] else (l.drop (l.length + 1 - cap)) ++ [a]

/-- The state after startup (src/main.py lines 408-432): background
seeded from the first valid thermal frame, everything else empty or
idle, and the initial telemetry record written. -/
def initialState (thermal : Thermal) : LoopState :=
  { background := fun r c => ((thermal r c : ℚ))
    tracks := []
    prebuffer := []
    recording := false
    raw_out := none
    trk_out := none
    last_seen := 0
    last_photo_time := 0
    events_count := 0
    statusLog := [⟨false, 0⟩]
    photos := [] }

/-- The START RECORDING block (src/main.py lines 486-523). On an
Idle-to-Recording attempt, both writers are opened; if either open
fails, both handles are released and cleared and the state stays Idle;
on success the whole pre-roll buffer is flushed to both sinks in order,
the recording flag, timers, event counter and telemetry are updated. In
both branches the start snapshot photo (lines 521-523, outside the
if/else) is written. -/
def startBlock (env : Env) (v : Visual) (visible : List (ℕ × Track))
    (s : LoopState) : LoopState :=
  if visible ≠ [] ∧ s.recording = false then
    if env.rawOpenOk = false ∨ env.trkOpenOk = false then
      { s with recording := false, raw_out := none, trk_out := none,
               photos := s.photos ++ [v] }
    else
      { s with raw_out := some (s.prebuffer.map VFrame.plain)
               trk_out := some (s.prebuffer.map VFrame.plain)
               recording := true
               last_seen := env.now
               last_photo_time := 0
               events_count := s.events_count + 1
               statusLog := s.statusLog ++ [⟨true, s.events_count + 1⟩]
               photos := s.photos ++ [v] }
  else s

/-- The DURING RECORDING block (src/main.py lines 526-589): advance the
last-object-seen timer, take a periodic photo at most once per
PHOTO_INTERVAL_SEC, write the current frame to the raw sink and the
annotated copy to the tracked sink, and stop (release both sinks, clear
the pre-roll buffer, write telemetry) when no object has been seen for
longer than POST_ROLL_SEC. -/
def duringBlock (env : Env) (v : Visual) (visible : List (ℕ × Track))
    (s : LoopState) : LoopState :=
  if s.recording = true then
    let ls := if visible ≠ [] then env.now else s.last_seen
    let doPhoto : Bool := decide (visible ≠ []) &&
      decide (PHOTO_INTERVAL_SEC ≤ env.now - s.last_photo_time)
    let photos := if doPhoto then s.photos ++ [v] else s.photos
    let lpt := if doPhoto then env.now else s.last_photo_time
    let raw2 := s.raw_out.map (fun l => l ++ [VFrame.plain v])
    let trk2 := s.trk_out.map (fun l => l ++ [VFrame.annot v visible])
    if visible = [] ∧ POST_ROLL_SEC < env.now - ls then
      { s with recording := false, raw_out := none, trk_out := none,
               prebuffer := [], last_seen := ls, last_photo_time := lpt,
               photos := photos,
               statusLog := s.statusLog ++ [⟨false, s.events_count⟩] }
    else
      { s with last_seen := ls, last_photo_time := lpt, photos := photos,
               raw_out := raw2, trk_out := trk2 }
  else s

/-- One iteration of the main loop (src/main.py lines 437-658). A failed
capture read or a failed decode skips the frame, leaving the state
untouched. Otherwise: honour the background-reset marker, append the
visual frame to the pre-roll buffer (visual smoothing is disabled in the
source, line 44), run the background update and the
detect / merge / track chain, then the start-recording and
during-recording blocks. The live-preview JPEG write and the console
status lines touch no modelled state and are omitted. -/
def loopStep (env : Env) (s : LoopState) : LoopState :=
  match env.capture with
  | none => s
  | some frame =>
    match decodeFrame frame with
    | none => s
    | some vt =>
      let background := if env.resetFlag then fun r c => ((vt.2 r c : ℚ)) else s.background
      let visual_out := vt.1
      let prebuffer := pushBounded PREBUF_CAP s.prebuffer visual_out
      let background2 := updateBackground vt.2 background
      let tv := update_tracks (merge_detections env.dets) s.tracks env.now
      let s1 : LoopState :=
        { s with background := background2, prebuffer := prebuffer, tracks := tv.1 }
      duringBlock env visual_out tv.2 (startBlock env visual_out tv.2 s1)

/-- The sink-handle invariant of the recording pipeline: the raw and
tracked sink handles are null together, and they are open exactly while
the recording flag is set. -/
def sinkInv (s : LoopState) : Prop :=
  s.raw_out.isNone = s.trk_out.isNone ∧ s.raw_out.isSome = s.recording

/-! ### Lemmas about the blob merge resolver -/

theorem absorb_len_le (b : Box) (l : List Det) :
    ((absorb b l).2.1).length ≤ l.length := by
  induction l generalizing b with
  | nil => simp [absorb]
  | cons d rest ih =>
    by_cases h : mergeCond b d.box
    · simp only [absorb, h, if_true]
      exact Nat.le_succ_of_le (ih _)
    · simp only [absorb, h, if_false, List.length_cons]
      exact Nat.succ_le_succ (ih _)

theorem absorb_of_false (b : Box) (l : List Det)
    (h : (absorb b l).2.2 = false) :
    (absorb b l).1 = b ∧ (absorb b l).2.1 = l ∧
      ∀ d ∈ l, mergeCond b d.box = false := by
  induction l generalizing b with
  | nil => simp [absorb]
  | cons d rest ih =>
    by_cases hm : mergeCond b d.box
    · simp [absorb, hm] at h
    · have hm' : mergeCond b d.box = false := Bool.eq_false_iff.mpr hm
      simp only [absorb, hm', Bool.false_eq_true, if_false] at h ⊢
      obtain ⟨h1, h2, h3⟩ := ih b h
      refine ⟨h1, by rw [h2], ?_⟩
      intro d' hd'
      rcases List.mem_cons.mp hd' with rfl | hmem
      · exact hm'
      · exact h3 d' hmem

theorem absorb_of_all (b : Box) (l : List Det)
    (h : ∀ d ∈ l, mergeCond b d.box = false) : absorb b l = (b, l, false) := by
  induction l with
  | nil => simp [absorb]
  | cons d rest ih =>
    have hd : mergeCond b d.box = false := h d (List.mem_cons_self d rest)
    simp only [absorb, hd, Bool.false_eq_true, if_false]
    rw [ih (fun d' hd' => h d' (List.mem_cons_of_mem d hd'))]

theorem absorb_len_lt (b : Box) (l : List Det)
    (h : (absorb b l).2.2 = true) : ((absorb b l).2.1).length < l.length := by
  induction l generalizing b with
  | nil => simp [absorb] at h
  | cons d rest ih =>
    by_cases hm : mergeCond b d.box
    · simp only [absorb, hm, if_true]
      exact Nat.lt_succ_of_le (absorb_len_le _ _)
    · simp only [absorb, hm, if_false, List.length_cons] at h ⊢
      exact Nat.succ_lt_succ (ih b h)

theorem onePassAux_len (n : ℕ) (l : List Det) (hn : l.length ≤ n) :
    ((onePassAux n l).1.length ≤ l.length) ∧
      ((onePassAux n l).2 = true → (onePassAux n l).1.length < l.length) := by
  induction n generalizing l with
  | zero =>
    refine ⟨le_rfl, ?_⟩
    intro h
    simp [onePassAux] at h
  | succ n ih =>
    cases l with
    | nil => simp [onePassAux]
    | cons d rest =>
      simp only [onePassAux]
      have hr := absorb_len_le d.box rest
      have hrest : rest.length ≤ n := Nat.le_of_succ_le_succ hn
      have hcall : ((absorb d.box rest).2.1).length ≤ n := le_trans hr hrest
      obtain ⟨ih1, ih2⟩ := ih ((absorb d.box rest).2.1) hcall
      constructor
      · simpa using Nat.succ_le_succ (le_trans ih1 hr)
      · intro h
        rcases Bool.or_eq_true_iff.mp h with h2 | h2
        · have := absorb_len_lt d.box rest h2
          simpa using Nat.succ_lt_succ (lt_of_le_of_lt ih1 this)
        · have := ih2 h2
          simpa using Nat.succ_lt_succ (lt_of_lt_of_le this hr)

theorem onePassAux_false (n : ℕ) (l : List Det) (hn : l.length ≤ n)
    (h : (onePassAux n l).2 = false) :
    (onePassAux n l).1 = l.map (fun d => mkDet d.box) ∧
      l.Pairwise (fun a b => mergeCond a.box b.box = false) := by
  induction n generalizing l with
  | zero =>
    have : l = [] := List.length_eq_zero.mp (Nat.le_zero.mp hn)
    subst this
    simp [onePassAux]
  | succ n ih =>
    cases l with
    | nil => simp [onePassAux]
    | cons d rest =>
      simp only [onePassAux, Bool.or_eq_false_iff] at h
      obtain ⟨h1, h2⟩ := h
      obtain ⟨hb, hrest, hcond⟩ := absorb_of_false d.box rest h1
      rw [hrest] at h2
      have hrlen : rest.length ≤ n := Nat.le_of_succ_le_succ hn
      obtain ⟨hmap, hpw⟩ := ih rest hrlen h2
      constructor
      · simp only [onePassAux, hrest, hb, hmap, List.map_cons]
      · exact List.Pairwise.cons hcond hpw

theorem onePassAux_of_pairwise (n : ℕ) (l : List Det) (hn : l.length ≤ n)
    (h : l.Pairwise (fun a b => mergeCond a.box b.box = false)) :
    onePassAux n l = (l.map (fun d => mkDet d.box), false) := by
  induction n generalizing l with
  | zero =>
    have : l = [] := List.length_eq_zero.mp (Nat.le_zero.mp hn)
    subst this
    simp [onePassAux]
  | succ n ih =>
    cases l with
    | nil => simp [onePassAux]
    | cons d rest =>
      obtain ⟨hcond, hpw⟩ := List.pairwise_cons.mp h
      have habs : absorb d.box rest = (d.box, rest, false) :=
        absorb_of_all d.box rest hcond
      have hrlen : rest.length ≤ n := Nat.le_of_succ_le_succ hn
      simp only [onePassAux, habs, ih rest hrlen hpw, List.map_cons,
        Bool.or_self]

theorem list_map_id_of {α : Type} (f : α → α) (l : List α)
    (h : ∀ x ∈ l, f x = x) : l.map f = l := by
  induction l with
  | nil => simp
  | cons a l ih =>
    simp only [List.map_cons, h a (List.mem_cons_self a l)]
    rw [ih (fun x hx => h x (List.mem_cons_of_mem a hx))]

theorem mergeLoopAux_good (n : ℕ) (l : List Det) (hn : l.length < n) :
    (mergeLoopAux n l).Pairwise (fun a b => mergeCond a.box b.box = false) ∧
      ∀ d ∈ mergeLoopAux n l, d.cx = centerX d.box ∧ d.cy = centerY d.box := by
  induction n generalizing l with
  | zero => omega
  | succ n ih =>
    simp only [mergeLoopAux]
    by_cases hp : (onePass l).2 = true
    · simp only [hp, if_true]
      have hlt := (onePassAux_len l.length l le_rfl).2 hp
      exact ih (onePass l).1 (lt_of_lt_of_le hlt (Nat.le_of_succ_le_succ hn))
    · have hp2 : (onePass l).2 = false := Bool.eq_false_iff.mpr hp
      simp only [hp2, Bool.false_eq_true, if_false]
      obtain ⟨hmap, hpw⟩ := onePassAux_false l.length l le_rfl hp2
      rw [show (onePass l).1 = List.map (fun d => mkDet d.box) l from hmap]
      constructor
      · rw [List.pairwise_map]
        exact hpw
      · intro d hd
        obtain ⟨d', _, rfl⟩ := List.mem_map.mp hd
        exact ⟨rfl, rfl⟩

theorem union_bbox_contains (b1 b2 : Box) :
    boxContains (union_bbox b1 b2) b1 = true ∧
      boxContains (union_bbox b1 b2) b2 = true := by
  simp only [boxContains, union_bbox, decide_eq_true_eq]
  omega

/-- C5: merge_detections returns a fixpoint of merging: no two distinct
output detections have intersecting or touching boxes (zero padding), no
two output centroids are strictly closer than SPLIT_DISTANCE_PX (stated
on squared distances, which is equivalent since both sides are
nonnegative), every output centroid is the center of its box, and the
result is literally a fixpoint of merge_detections. -/
theorem merge_detections_fixpoint (l : List Det) :
    (merge_detections l).Pairwise
      (fun a b => rects_intersect a.box b.box 0 = false ∧
        ¬((a.cx - b.cx) * (a.cx - b.cx) + (a.cy - b.cy) * (a.cy - b.cy) <
          SPLIT_DISTANCE_PX * SPLIT_DISTANCE_PX)) ∧
    (∀ d ∈ merge_detections l, d.cx = centerX d.box ∧ d.cy = centerY d.box) ∧
    merge_detections (merge_detections l) = merge_detections l := by
  obtain ⟨hpw, hcent⟩ := mergeLoopAux_good (l.length + 1) l (Nat.lt_succ_self _)
  have hpw' : (merge_detections l).Pairwise
      (fun a b => mergeCond a.box b.box = false) := hpw
  refine ⟨?_, hcent, ?_⟩
  · refine List.Pairwise.imp_of_mem ?_ hpw'
    intro a b ha hb hab
    obtain ⟨hclose, hint⟩ := Bool.or_eq_false_iff.mp hab
    refine ⟨hint, ?_⟩
    have hca := hcent a ha
    have hcb := hcent b hb
    have hnc := of_decide_eq_false
      (by simpa [closeCenters] using hclose :
        decide ((centerX a.box - centerX b.box) * (centerX a.box - centerX b.box) +
          (centerY a.box - centerY b.box) * (centerY a.box - centerY b.box) <
          SPLIT_DISTANCE_PX * SPLIT_DISTANCE_PX) = false)
    rw [hca.1, hca.2, hcb.1, hcb.2]
    exact hnc
  · have hpwR : (merge_detections l).Pairwise
        (fun a b => mergeCond a.box b.box = false) := hpw'
    have hcR : ∀ d ∈ merge_detections l,
        d.cx = centerX d.box ∧ d.cy = centerY d.box := hcent
    generalize hR : merge_detections l = R at hpwR hcR
    have h3 := onePassAux_of_pairwise R.length R le_rfl hpwR
    have h4 : mergeLoopAux (R.length + 1) R = R.map (fun d => mkDet d.box) := by
      simp only [mergeLoopAux, onePass, h3, Bool.false_eq_true, if_false]
    have h5 : merge_detections R = R.map (fun d => mkDet d.box) := h4
    rw [h5]
    refine list_map_id_of _ _ ?_
    intro d hd
    obtain ⟨h1, h2⟩ := hcR d hd
    show (⟨d.box, centerX d.box, centerY d.box⟩ : Det) = d
    rw [← h1, ← h2]

/-- C6 counterexample: three canonical detections (each centroid the
center of its box). The first and third have centroid distance
sqrt 377 < 20, yet the output contains no single detection whose box
contains both of their boxes: in the first pass the first detection
absorbs the second (centroid distance 18), and the grown union box's
center is too far from the third, so the closeness that held between the
original pair is never acted on. -/
theorem merge_close_pair_cex :
    ((1 : ℚ) - 17) * ((1 : ℚ) - 17) + ((19 : ℚ) - 30) * ((19 : ℚ) - 30) <
      SPLIT_DISTANCE_PX * SPLIT_DISTANCE_PX ∧
    merge_detections
        [⟨⟨0,18,2,2⟩, 1, 19⟩, ⟨⟨0,0,2,2⟩, 1, 1⟩, ⟨⟨16,29,2,2⟩, 17, 30⟩] =
      [⟨⟨0,0,2,20⟩, 1, 10⟩, ⟨⟨16,29,2,2⟩, 17, 30⟩] ∧
    ¬ ∃ d ∈ merge_detections
        [⟨⟨0,18,2,2⟩, 1, 19⟩, ⟨⟨0,0,2,2⟩, 1, 1⟩, ⟨⟨16,29,2,2⟩, 17, 30⟩],
        boxContains d.box (⟨0,18,2,2⟩ : Box) = true ∧
        boxContains d.box (⟨16,29,2,2⟩ : Box) = true := by
  with_unfolding_all decide

/-- C6 amended: (1) when the input consists of exactly the two
detections (centroids at their box centers) whose centroids are within
the merge distance threshold, merge_detections returns the single
unioned detection, whose box contains both input boxes; (2) when every
pair of input detections has centroids at least the threshold apart and
non-overlapping boxes, all detections remain separate (the output is the
input with centroids recomputed). With three or more detections a close
pair need not be merged, because closeness is tested against the
accumulating union box (see the counterexample). -/
theorem merge_close_pair_amended :
    (∀ d1 d2 : Det,
      d1.cx = centerX d1.box → d1.cy = centerY d1.box →
      d2.cx = centerX d2.box → d2.cy = centerY d2.box →
      (d1.cx - d2.cx) * (d1.cx - d2.cx) + (d1.cy - d2.cy) * (d1.cy - d2.cy) <
        SPLIT_DISTANCE_PX * SPLIT_DISTANCE_PX →
      merge_detections [d1, d2] = [mkDet (union_bbox d1.box d2.box)] ∧
        boxContains (union_bbox d1.box d2.box) d1.box = true ∧
        boxContains (union_bbox d1.box d2.box) d2.box = true) ∧
    (∀ l : List Det,
      (∀ d ∈ l, d.cx = centerX d.box ∧ d.cy = centerY d.box) →
      l.Pairwise (fun a b =>
        ¬((a.cx - b.cx) * (a.cx - b.cx) + (a.cy - b.cy) * (a.cy - b.cy) <
          SPLIT_DISTANCE_PX * SPLIT_DISTANCE_PX) ∧
        rects_intersect a.box b.box 0 = false) →
      merge_detections l = l.map (fun d => mkDet d.box)) := by
  constructor
  · intro d1 d2 h1 h2 h3 h4 hclose
    have hcc : closeCenters d1.box d2.box = true := by
      simp only [closeCenters, decide_eq_true_eq]
      rw [← h1, ← h2, ← h3, ← h4]
      exact hclose
    have hmc : mergeCond d1.box d2.box = true := by
      simp [mergeCond, hcc]
    have hfinal : merge_detections [d1, d2] =
        [mkDet (union_bbox d1.box d2.box)] := by
      simp [merge_detections, mergeLoopAux, onePass, onePassAux, absorb, hmc]
      rfl
    exact ⟨hfinal, (union_bbox_contains d1.box d2.box).1,
      (union_bbox_contains d1.box d2.box).2⟩
  · intro l hcent hpw
    have hpw' : l.Pairwise (fun a b => mergeCond a.box b.box = false) := by
      refine List.Pairwise.imp_of_mem ?_ hpw
      intro a b ha hb hab
      obtain ⟨hclose, hint⟩ := hab
      have hcc : closeCenters a.box b.box = false := by
        simp only [closeCenters, decide_eq_false_iff_not]
        rw [← (hcent a ha).1, ← (hcent a ha).2, ← (hcent b hb).1,
          ← (hcent b hb).2]
        exact hclose
      simp [mergeCond, hcc, hint]
    have h3 := onePassAux_of_pairwise l.length l le_rfl hpw'
    simp [merge_detections, mergeLoopAux, onePass, h3]

/-- Witness for the amended C6 theorem at concrete inputs: two canonical
detections 10 px apart merge into their union, and two far-apart
detections stay separate. -/
theorem merge_close_pair_amended_w :
    merge_detections [⟨⟨0,0,2,2⟩, 1, 1⟩, ⟨⟨10,0,2,2⟩, 11, 1⟩] =
      [mkDet (union_bbox ⟨0,0,2,2⟩ ⟨10,0,2,2⟩)] ∧
    merge_detections [⟨⟨0,0,2,2⟩, 1, 1⟩, ⟨⟨100,100,2,2⟩, 101, 101⟩] =
      [mkDet ⟨0,0,2,2⟩, mkDet ⟨100,100,2,2⟩] := by
  constructor
  · exact (merge_close_pair_amended.1 ⟨⟨0,0,2,2⟩, 1, 1⟩ ⟨⟨10,0,2,2⟩, 11, 1⟩
      (by with_unfolding_all decide) (by with_unfolding_all decide)
      (by with_unfolding_all decide) (by with_unfolding_all decide)
      (by with_unfolding_all decide)).1
  · exact merge_close_pair_amended.2
      [⟨⟨0,0,2,2⟩, 1, 1⟩, ⟨⟨100,100,2,2⟩, 101, 101⟩]
      (by with_unfolding_all decide) (by with_unfolding_all decide)

/-! ### Lemmas about the tracker -/

theorem matchLoop_keys (dets : List Det) (now : ℚ) (tracks : List (ℕ × Track))
    (used : List ℕ) :
    ((matchLoop dets now tracks used).1).map Prod.fst = tracks.map Prod.fst := by
  induction tracks generalizing used with
  | nil => simp [matchLoop]
  | cons q rest ih =>
    obtain ⟨tid, t⟩ := q
    cases hb : bestFold t used dets with
    | some pr => simp [matchLoop, hb, ih]
    | none => simp [matchLoop, hb, ih]

theorem matchLoop_vis (dets : List Det) (now : ℚ) (tracks : List (ℕ × Track))
    (used : List ℕ) :
    ∀ p ∈ (matchLoop dets now tracks used).2.2,
      p ∈ (matchLoop dets now tracks used).1 ∧ p.2.last = now := by
  induction tracks generalizing used with
  | nil => simp [matchLoop]
  | cons q rest ih =>
    obtain ⟨tid, t⟩ := q
    intro p hp
    cases hb : bestFold t used dets with
    | some pr =>
      simp only [matchLoop, hb] at hp ⊢
      rcases List.mem_cons.mp hp with rfl | hmem
      · exact ⟨List.mem_cons_self _ _, rfl⟩
      · obtain ⟨h1, h2⟩ := ih (pr.1 :: used) p hmem
        exact ⟨List.mem_cons_of_mem _ h1, h2⟩
    | none =>
      simp only [matchLoop, hb] at hp ⊢
      obtain ⟨h1, h2⟩ := ih used p hp
      exact ⟨List.mem_cons_of_mem _ h1, h2⟩

theorem spawnLoop_vis_eq (now : ℚ) (used : List ℕ) (l : List (ℕ × Det))
    (next : ℕ) :
    (spawnLoop now used l next).2 = (spawnLoop now used l next).1 := by
  induction l generalizing next with
  | nil => simp [spawnLoop]
  | cons q rest ih =>
    obtain ⟨i, d⟩ := q
    by_cases hi : i ∈ used
    · simp [spawnLoop, hi, ih]
    · simp [spawnLoop, hi, ih]

theorem spawnLoop_last (now : ℚ) (used : List ℕ) (l : List (ℕ × Det))
    (next : ℕ) :
    ∀ p ∈ (spawnLoop now used l next).1, p.2.last = now := by
  induction l generalizing next with
  | nil => simp [spawnLoop]
  | cons q rest ih =>
    obtain ⟨i, d⟩ := q
    intro p hp
    by_cases hi : i ∈ used
    · simp only [spawnLoop, hi, if_true] at hp
      exact ih next p hp
    · simp only [spawnLoop, hi, if_false] at hp
      rcases List.mem_cons.mp hp with rfl | hmem
      · rfl
      · exact ih (next + 1) p hmem

theorem spawnLoop_keys (now : ℚ) (used : List ℕ) (l : List (ℕ × Det))
    (next : ℕ) :
    ((spawnLoop now used l next).1).map Prod.fst =
      List.range' next ((spawnLoop now used l next).1).length := by
  induction l generalizing next with
  | nil => simp [spawnLoop]
  | cons q rest ih =>
    obtain ⟨i, d⟩ := q
    by_cases hi : i ∈ used
    · simp [spawnLoop, hi, ih]
    · simp [spawnLoop, hi, ih, List.range'_succ]

theorem foldl_max_le_init (l : List ℕ) (a : ℕ) : a ≤ l.foldl max a := by
  induction l generalizing a with
  | nil => simp
  | cons b l ih => exact le_trans (Nat.le_max_left a b) (ih (max a b))

theorem mem_le_foldl_max (l : List ℕ) (a : ℕ) : ∀ x ∈ l, x ≤ l.foldl max a := by
  induction l generalizing a with
  | nil => simp
  | cons b l ih =>
    intro x hx
    rcases List.mem_cons.mp hx with rfl | hmem
    · exact le_trans (Nat.le_max_right a x) (foldl_max_le_init l (max a x))
    · exact ih (max a b) x hmem

/-- C8: after every update_tracks call, every remaining track satisfies
now - last_seen <= TRACK_FORGET_SEC, and any (id, track) pair whose
staleness exceeds the window is absent from the returned track set: the
deletion loop runs at the end of every call, so an over-age track is
removed on the first call (frame) that observes it over-age. -/
theorem update_tracks_forget (dets : List Det) (tracks : List (ℕ × Track))
    (now : ℚ) :
    (∀ p ∈ (update_tracks dets tracks now).1,
      now - p.2.last ≤ TRACK_FORGET_SEC) ∧
    (∀ p : ℕ × Track, TRACK_FORGET_SEC < now - p.2.last →
      p ∉ (update_tracks dets tracks now).1) := by
  constructor
  · intro p hp
    simp only [update_tracks] at hp
    have := (List.mem_filter.mp hp).2
    exact of_decide_eq_true this
  · intro p hlt hp
    simp only [update_tracks] at hp
    have := of_decide_eq_true (List.mem_filter.mp hp).2
    linarith

/-- Witness for C8 at concrete inputs: a freshly matched track is within
the window, and a track stale by 20 s has been deleted. -/
theorem update_tracks_forget_w :
    (20 : ℚ) - ((1, (⟨1, 1, ⟨0,0,2,2⟩, 20⟩ : Track)) : ℕ × Track).2.last ≤
      TRACK_FORGET_SEC ∧
    ((1, (⟨0, 0, ⟨0,0,2,2⟩, 0⟩ : Track)) : ℕ × Track) ∉
      (update_tracks [] [(1, ⟨0, 0, ⟨0,0,2,2⟩, 0⟩)] 20).1 :=
  ⟨(update_tracks_forget [⟨⟨0,0,2,2⟩, 1, 1⟩] [] 20).1 _
      (by with_unfolding_all decide),
   (update_tracks_forget [] [(1, ⟨0, 0, ⟨0,0,2,2⟩, 0⟩)] 20).2 _
      (by with_unfolding_all decide)⟩

/-- C7 counterexample: ids are reused after a deletion. Call 1 (t = 0)
creates tracks 1 and 2 from two far-apart detections. Call 2 (t = 11)
matches track 1 and deletes track 2 (stale by 11 s > 10 s). Call 3
(t = 12) sees a detection far from track 1 and assigns it
next_id = max existing id + 1 = 2: the id 2 is assigned to a second,
distinct track within the same process run, contradicting that every new
id is strictly greater than every id ever assigned before. -/
theorem track_id_reuse_cex :
    ((update_tracks [⟨⟨0,0,2,2⟩, 1, 1⟩, ⟨⟨100,100,2,2⟩, 101, 101⟩] [] 0).1).map
        Prod.fst = [1, 2] ∧
    ((update_tracks [⟨⟨0,0,2,2⟩, 1, 1⟩]
        (update_tracks [⟨⟨0,0,2,2⟩, 1, 1⟩, ⟨⟨100,100,2,2⟩, 101, 101⟩] [] 0).1
        11).1).map Prod.fst = [1] ∧
    ((update_tracks [⟨⟨100,100,2,2⟩, 101, 101⟩]
        ((update_tracks [⟨⟨0,0,2,2⟩, 1, 1⟩]
          (update_tracks [⟨⟨0,0,2,2⟩, 1, 1⟩, ⟨⟨100,100,2,2⟩, 101, 101⟩] [] 0).1
          11).1) 12).1).map Prod.fst = [1, 2] := by
  with_unfolding_all decide

/-- C7 amended: each id assigned to a newly created track is strictly
greater than every id present in the track set at the start of the call
(new ids count consecutively from max existing id + 1, i.e. from 1 when
no tracks exist), but since next_id is computed from the ids still
present, the id of a previously deleted track can be assigned again
later in the same process run (see the counterexample). -/
theorem track_new_ids_amended (dets : List Det) (tracks : List (ℕ × Track))
    (now : ℚ) :
    (((update_tracks dets tracks now).1.map Prod.fst).filter
        (fun k => !decide (k ∈ tracks.map Prod.fst)) =
      List.range' ((tracks.map Prod.fst).foldl max 0 + 1)
        (((update_tracks dets tracks now).1.map Prod.fst).filter
          (fun k => !decide (k ∈ tracks.map Prod.fst))).length) ∧
    (∀ k ∈ ((update_tracks dets tracks now).1.map Prod.fst).filter
        (fun k => !decide (k ∈ tracks.map Prod.fst)),
      ∀ k2 ∈ tracks.map Prod.fst, k2 < k) := by
  have h010 : (0 : ℚ) ≤ TRACK_FORGET_SEC := by
    norm_num [TRACK_FORGET_SEC, POST_ROLL_SEC]
  set inKeys := tracks.map Prod.fst with hin
  set maxK := inKeys.foldl max 0 with hmaxK
  set m := matchLoop dets now tracks [] with hm
  set sp := spawnLoop now m.2.1 dets.enum (maxK + 1) with hsp
  have hres : (update_tracks dets tracks now).1 =
      (m.1 ++ sp.1).filter
        (fun p => decide (now - p.2.last ≤ TRACK_FORGET_SEC)) := rfl
  have hspfull : sp.1.filter
      (fun p => decide (now - p.2.last ≤ TRACK_FORGET_SEC)) = sp.1 := by
    refine List.filter_eq_self.mpr ?_
    intro p hp
    rw [spawnLoop_last now m.2.1 dets.enum (maxK + 1) p hp]
    simpa using h010
  have hmkeys : ∀ p ∈ m.1.filter
      (fun p => decide (now - p.2.last ≤ TRACK_FORGET_SEC)), p.1 ∈ inKeys := by
    intro p hp
    have h1 : p ∈ m.1 := (List.mem_filter.mp hp).1
    have : p.1 ∈ m.1.map Prod.fst := List.mem_map_of_mem Prod.fst h1
    rw [matchLoop_keys] at this
    exact this
  have hspkeys : sp.1.map Prod.fst =
      List.range' (maxK + 1) (sp.1.map Prod.fst).length := by
    have := spawnLoop_keys now m.2.1 dets.enum (maxK + 1)
    simpa using this
  have hnewkeys : ((update_tracks dets tracks now).1.map Prod.fst).filter
      (fun k => !decide (k ∈ inKeys)) = sp.1.map Prod.fst := by
    rw [hres, List.filter_append, hspfull, List.map_append, List.filter_append]
    have hleft : ((m.1.filter
        (fun p => decide (now - p.2.last ≤ TRACK_FORGET_SEC))).map
          Prod.fst).filter (fun k => !decide (k ∈ inKeys)) = [] := by
      refine List.filter_eq_nil_iff.mpr ?_
      intro k hk
      obtain ⟨p, hp, rfl⟩ := List.mem_map.mp hk
      simp [hmkeys p hp]
    have hright : (sp.1.map Prod.fst).filter (fun k => !decide (k ∈ inKeys)) =
        sp.1.map Prod.fst := by
      refine List.filter_eq_self.mpr ?_
      intro k hk
      have hge : maxK + 1 ≤ k := by
        rw [hspkeys] at hk
        exact (List.mem_range'_1.mp hk).1
      have hnot : k ∉ inKeys := by
        intro hkin
        have := mem_le_foldl_max inKeys 0 k hkin
        omega
      simp [hnot]
    rw [hleft, hright, List.nil_append]
  constructor
  · rw [hnewkeys]
    rw [hspkeys]
    simp
  · intro k hk k2 hk2
    rw [hnewkeys, hspkeys] at hk
    have hge : maxK + 1 ≤ k := (List.mem_range'_1.mp hk).1
    have hle : k2 ≤ maxK := mem_le_foldl_max inKeys 0 k2 hk2
    omega

/-- Witness for the amended C7 theorem: with one existing track (id 1)
and one far-away detection, the new id 2 is strictly greater than the
existing id 1. -/
theorem track_new_ids_amended_w : 1 < 2 :=
  (track_new_ids_amended [⟨⟨100,100,2,2⟩, 101, 101⟩]
      [(1, ⟨0, 0, ⟨0,0,2,2⟩, 0⟩)] 0).2
    2 (by with_unfolding_all decide) 1 (by with_unfolding_all decide)

/-- C10: matching happens before expiry in update_tracks. First, every
track in the visible list (matched or newly created) is present in the
returned track set: a successful match stamps last_seen = now, so a
track that matches a detection is never deleted in the same call.
Second, an existing track whose staleness already exceeds the forget
window at the start of the call still claims a detection within
TRACK_MAX_DIST in that call, survives, and is returned updated with
last_seen = now. -/
theorem update_tracks_match_before_expiry :
    (∀ (dets : List Det) (tracks : List (ℕ × Track)) (now : ℚ),
      ∀ p ∈ (update_tracks dets tracks now).2,
        p ∈ (update_tracks dets tracks now).1) ∧
    (∀ (tid : ℕ) (t : Track) (d : Det) (now : ℚ),
      TRACK_FORGET_SEC < now - t.last →
      distSq t d < TRACK_MAX_DIST →
      update_tracks [d] [(tid, t)] now =
        ([(tid, ⟨d.cx, d.cy, d.box, now⟩)],
         [(tid, ⟨d.cx, d.cy, d.box, now⟩)])) := by
  have h010 : (0 : ℚ) ≤ TRACK_FORGET_SEC := by
    norm_num [TRACK_FORGET_SEC, POST_ROLL_SEC]
  constructor
  · intro dets tracks now p hp
    set m := matchLoop dets now tracks [] with hm
    set nid := (tracks.map Prod.fst).foldl max 0 + 1 with hnid
    set sp := spawnLoop now m.2.1 dets.enum nid with hsp
    have hvis : (update_tracks dets tracks now).2 = m.2.2 ++ sp.2 := rfl
    have hres : (update_tracks dets tracks now).1 =
        (m.1 ++ sp.1).filter
          (fun p => decide (now - p.2.last ≤ TRACK_FORGET_SEC)) := rfl
    rw [hvis] at hp
    rw [hres]
    rcases List.mem_append.mp hp with hmem | hmem
    · obtain ⟨h1, h2⟩ := matchLoop_vis dets now tracks [] p hmem
      refine List.mem_filter.mpr ⟨List.mem_append_left _ h1, ?_⟩
      rw [h2]
      simpa using h010
    · rw [spawnLoop_vis_eq] at hmem
      have h2 := spawnLoop_last now m.2.1 dets.enum nid p hmem
      refine List.mem_filter.mpr ⟨List.mem_append_right _ hmem, ?_⟩
      rw [h2]
      simpa using h010
  · intro tid t d now hexp hdist
    have henum : ([d].enum) = [(0, d)] := rfl
    have hbf : bestFold t [] [d] = some (0, d) := by
      simp [bestFold, henum, hdist]
    simp [update_tracks, matchLoop, hbf, spawnLoop, henum, sub_self, h010]

/-- Witness for C10: a track stale by 20 s (window 10 s) still claims a
detection 5 px away and is returned updated; and a concrete visible
entry is in the returned track set. -/
theorem update_tracks_match_before_expiry_w :
    update_tracks [⟨⟨3,4,2,2⟩, 4, 5⟩] [(7, ⟨1, 1, ⟨0,0,2,2⟩, 0⟩)] 20 =
      ([(7, ⟨4, 5, ⟨3,4,2,2⟩, 20⟩)], [(7, ⟨4, 5, ⟨3,4,2,2⟩, 20⟩)]) ∧
    ((1, (⟨1, 1, ⟨0,0,2,2⟩, 0⟩ : Track)) : ℕ × Track) ∈
      (update_tracks [⟨⟨0,0,2,2⟩, 1, 1⟩] [] 0).1 :=
  ⟨update_tracks_match_before_expiry.2 7 ⟨1, 1, ⟨0,0,2,2⟩, 0⟩ ⟨⟨3,4,2,2⟩, 4, 5⟩ 20
      (by with_unfolding_all decide) (by with_unfolding_all decide),
   update_tracks_match_before_expiry.1 [⟨⟨0,0,2,2⟩, 1, 1⟩] [] 0 _
      (by with_unfolding_all decide)⟩

/-! ### Segmentation and decoding -/

theorem ratTrunc_nonneg (q : ℚ) (h : 0 ≤ q) : ratTrunc q = ⌊q⌋ := if_pos h

/-- C4: for any thermal frame and background model, a pixel is hot
exactly when thermal - background > THERMAL_DELTA_RAW (for the
nonnegative background values the program maintains: the model is seeded
from a uint16 frame and updated by convex blends, and the int32 cast
truncates, which on nonnegative values agrees with the exact comparison
because thermal values are integers); the returned background keeps the
old value at hot pixels and blends with coefficient BG_UPDATE_ALPHA at
cold pixels; and the update preserves nonnegativity, so the hypothesis
is invariant. -/
theorem detect_hot_objects_spec (thermal : Thermal) (bg : Background)
    (r c : ℕ) (hb : 0 ≤ bg r c) :
    (hotPixel (thermal r c) (bg r c) = true ↔
      (THERMAL_DELTA_RAW : ℚ) < (thermal r c : ℚ) - bg r c) ∧
    (hotPixel (thermal r c) (bg r c) = true →
      updateBackground thermal bg r c = bg r c) ∧
    (hotPixel (thermal r c) (bg r c) = false →
      updateBackground thermal bg r c =
        (1 - BG_UPDATE_ALPHA) * bg r c + BG_UPDATE_ALPHA * (thermal r c : ℚ)) ∧
    0 ≤ updateBackground thermal bg r c := by
  have htr : ratTrunc (bg r c) = ⌊bg r c⌋ := ratTrunc_nonneg _ hb
  have hiff : hotPixel (thermal r c) (bg r c) = true ↔
      (THERMAL_DELTA_RAW : ℚ) < (thermal r c : ℚ) - bg r c := by
    simp only [hotPixel, decide_eq_true_eq, htr]
    constructor
    · intro h
      have h2 : ⌊bg r c⌋ < (thermal r c : ℤ) - THERMAL_DELTA_RAW := by omega
      have h3 := Int.floor_lt.mp h2
      push_cast at h3
      linarith
    · intro h
      have h2 : bg r c < (((thermal r c : ℤ) - THERMAL_DELTA_RAW : ℤ) : ℚ) := by
        push_cast
        linarith
      have h3 := Int.floor_lt.mpr h2
      omega
  refine ⟨hiff, ?_, ?_, ?_⟩
  · intro h
    simp [updateBackground, bgUpdatePixel, h]
  · intro h
    simp [updateBackground, bgUpdatePixel, h]
  · by_cases h : hotPixel (thermal r c) (bg r c) = true
    · simpa [updateBackground, bgUpdatePixel, h] using hb
    · have h' : hotPixel (thermal r c) (bg r c) = false := Bool.eq_false_iff.mpr h
      simp only [updateBackground, bgUpdatePixel, h', Bool.false_eq_true, if_false]
      have ht : (0 : ℚ) ≤ (thermal r c : ℚ) := Nat.cast_nonneg _
      have ha : (0 : ℚ) ≤ 1 - BG_UPDATE_ALPHA := by norm_num [BG_UPDATE_ALPHA]
      have hb2 : (0 : ℚ) ≤ BG_UPDATE_ALPHA := by norm_num [BG_UPDATE_ALPHA]
      positivity

/-- Witness for C4 at a concrete pixel: thermal 200 over background 100
is hot (delta 100 > 96) and the background is kept there. -/
theorem detect_hot_objects_spec_w :
    hotPixel ((fun _ _ => 200 : Thermal) 0 0) ((fun _ _ => 100 : Background) 0 0) =
      true ∧
    updateBackground (fun _ _ => 200) (fun _ _ => 100) 0 0 = (100 : ℚ) :=
  ⟨((detect_hot_objects_spec (fun _ _ => 200) (fun _ _ => 100) 0 0
      (by norm_num)).1).mpr (by with_unfolding_all decide),
   (detect_hot_objects_spec (fun _ _ => 200) (fun _ _ => 100) 0 0
      (by norm_num)).2.1 (by with_unfolding_all decide)⟩

theorem lor_of_lt_256 (a b : ℕ) (h : a < 256) : a + b * 256 = a ||| (b <<< 8) := by
  refine Nat.eq_of_testBit_eq fun j => ?_
  have hrw : a + b * 256 = 2 ^ 8 * b + a := by ring
  rw [hrw, Nat.testBit_lor, Nat.testBit_shiftLeft,
    Nat.testBit_mul_pow_two_add b (show a < 2 ^ 8 from h) j]
  by_cases hj : j < 8
  · simp [hj, Nat.not_le_of_lt hj]
  · have ha : a.testBit j = false := Nat.testBit_eq_false_of_lt
      (Nat.lt_of_lt_of_le h
        (Nat.pow_le_pow_right (show 0 < 2 by norm_num) (Nat.le_of_not_lt hj)))
    simp [hj, Nat.le_of_not_lt hj, ha]

/-- C9: a raw frame in the stacked layout (height at least twice the
sensor height, width equal to the sensor width, two byte channels per
pixel) decodes to the HEIGHT x WIDTH visual plane taken from channel 0
of the top half and the 16-bit thermal plane combining the bottom-half
channels as low | (high << 8); and the main loop skips a failed capture
read or a failed decode without touching any state (background, tracks,
pre-roll buffer, recording, sinks, counters all unchanged, since the
whole state is returned untouched). -/
theorem decode_stacked_spec (f : RawFrame) (hh : HEIGHT * 2 ≤ f.h)
    (hw : f.w = WIDTH) (hc : 2 ≤ f.c)
    (hbyte : ∀ r c ch, f.px r c ch < 256) :
    (decodeFrame f = some (decode_visual f, decode_thermal_raw f)) ∧
    (∀ r c, decode_visual f r c = f.px r c 0) ∧
    (∀ r c, decode_thermal_raw f r c =
      f.px (HEIGHT + r) c 0 ||| (f.px (HEIGHT + r) c 1 <<< 8)) ∧
    (∀ (env : Env) (s : LoopState) (g : RawFrame), env.capture = some g →
      decodeFrame g = none → loopStep env s = s) ∧
    (∀ (env : Env) (s : LoopState), env.capture = none → loopStep env s = s) := by
  refine ⟨?_, fun r c => rfl, ?_, ?_, ?_⟩
  · simp [decodeFrame, hh, hw, hc]
  · intro r c
    exact lor_of_lt_256 _ _ (hbyte _ _ _)
  · intro env s g hcap hdec
    simp [loopStep, hcap, hdec]
  · intro env s hcap
    simp [loopStep, hcap]

/-- Witness for C9 on a concrete constant frame of the stacked shape. -/
theorem decode_stacked_spec_w :
    decodeFrame ⟨384, 256, 2, fun _ _ _ => 7⟩ =
      some (decode_visual ⟨384, 256, 2, fun _ _ _ => 7⟩,
            decode_thermal_raw ⟨384, 256, 2, fun _ _ _ => 7⟩) ∧
    decode_thermal_raw ⟨384, 256, 2, fun _ _ _ => 7⟩ 0 0 = 7 ||| (7 <<< 8) :=
  ⟨(decode_stacked_spec ⟨384, 256, 2, fun _ _ _ => 7⟩ (by decide) rfl (by decide)
      (fun _ _ _ => (by decide : (7 : ℕ) < 256))).1,
   (decode_stacked_spec ⟨384, 256, 2, fun _ _ _ => 7⟩ (by decide) rfl (by decide)
      (fun _ _ _ => (by decide : (7 : ℕ) < 256))).2.2.1 0 0⟩

/-! ### Lemmas about the recording pipeline state machine -/

theorem startBlock_inv (env : Env) (v : Visual) (vis : List (ℕ × Track))
    (s : LoopState) (hs : sinkInv s) : sinkInv (startBlock env v vis s) := by
  unfold startBlock
  split_ifs with h1 h2
  · exact ⟨rfl, rfl⟩
  · exact ⟨rfl, rfl⟩
  · exact hs

theorem duringBlock_inv (env : Env) (v : Visual) (vis : List (ℕ × Track))
    (s : LoopState) (hs : sinkInv s) : sinkInv (duringBlock env v vis s) := by
  obtain ⟨ha, hb⟩ := hs
  by_cases hr : s.recording = true
  · cases hao : s.raw_out with
    | none =>
      rw [hao] at hb
      rw [← hb] at hr
      simp at hr
    | some a =>
      cases hbo : s.trk_out with
      | none =>
        rw [hao, hbo] at ha
        simp at ha
      | some b =>
        simp only [duringBlock]
        rw [if_pos hr]
        split_ifs <;>
          first
          | exact ⟨rfl, rfl⟩
          | exact ⟨by simp [hao, hbo], by simp [hao, hr]⟩
  · have hr' : s.recording = false := Bool.eq_false_iff.mpr hr
    simp only [duringBlock]
    rw [if_neg hr]
    exact ⟨ha, hb⟩

theorem startBlock_fail (env : Env) (v : Visual) (vis : List (ℕ × Track))
    (s : LoopState) (hvis : vis ≠ []) (hrec : s.recording = false)
    (hfail : env.rawOpenOk = false ∨ env.trkOpenOk = false) :
    startBlock env v vis s =
      { s with recording := false, raw_out := none, trk_out := none,
               photos := s.photos ++ [v] } := by
  unfold startBlock
  rw [if_pos ⟨hvis, hrec⟩, if_pos hfail]

theorem startBlock_success (env : Env) (v : Visual) (vis : List (ℕ × Track))
    (s : LoopState) (hvis : vis ≠ []) (hrec : s.recording = false)
    (hraw : env.rawOpenOk = true) (htrk : env.trkOpenOk = true) :
    startBlock env v vis s =
      { s with raw_out := some (s.prebuffer.map VFrame.plain)
               trk_out := some (s.prebuffer.map VFrame.plain)
               recording := true
               last_seen := env.now
               last_photo_time := 0
               events_count := s.events_count + 1
               statusLog := s.statusLog ++ [⟨true, s.events_count + 1⟩]
               photos := s.photos ++ [v] } := by
  unfold startBlock
  rw [if_pos ⟨hvis, hrec⟩, if_neg (by simp [hraw, htrk])]

theorem duringBlock_idle (env : Env) (v : Visual) (vis : List (ℕ × Track))
    (s : LoopState) (hrec : s.recording = false) :
    duringBlock env v vis s = s := by
  simp only [duringBlock]
  rw [if_neg (by simp [hrec])]

theorem duringBlock_rec_vis (env : Env) (v : Visual) (vis : List (ℕ × Track))
    (s : LoopState) (hrec : s.recording = true) (hvis : vis ≠ []) :
    (duringBlock env v vis s).recording = true ∧
    (duringBlock env v vis s).raw_out =
      s.raw_out.map (fun l => l ++ [VFrame.plain v]) ∧
    (duringBlock env v vis s).trk_out =
      s.trk_out.map (fun l => l ++ [VFrame.annot v vis]) ∧
    (duringBlock env v vis s).events_count = s.events_count ∧
    (duringBlock env v vis s).statusLog = s.statusLog ∧
    (duringBlock env v vis s).prebuffer = s.prebuffer ∧
    (∃ rest, (duringBlock env v vis s).photos = s.photos ++ rest) := by
  have h1 : (if vis ≠ [] then env.now else s.last_seen) = env.now := if_pos hvis
  simp only [duringBlock, h1]
  rw [if_pos hrec, if_neg (fun h => hvis h.1)]
  refine ⟨hrec, rfl, rfl, rfl, rfl, rfl, ?_⟩
  by_cases hph : PHOTO_INTERVAL_SEC ≤ env.now - s.last_photo_time
  · refine ⟨[v], ?_⟩
    have hc : (decide (vis ≠ []) &&
        decide (PHOTO_INTERVAL_SEC ≤ env.now - s.last_photo_time)) = true := by
      simp [hvis, hph]
    simp [hc]
    exact ⟨hvis, hph⟩
  · refine ⟨[], ?_⟩
    have hc : (decide (vis ≠ []) &&
        decide (PHOTO_INTERVAL_SEC ≤ env.now - s.last_photo_time)) = false := by
      simp [hph]
    simp [hc]
    intro _
    exact not_le.mp hph

theorem pushBounded_length {α : Type} (cap : ℕ) (hc : 0 < cap) (l : List α)
    (a : α) (h : l.length ≤ cap) : (pushBounded cap l a).length ≤ cap := by
  unfold pushBounded
  split_ifs with h1
  · simp only [List.length_append, List.length_singleton]
    omega
  · simp only [List.length_append, List.length_singleton, List.length_drop]
    omega

theorem pushBounded_evict {α : Type} (cap : ℕ) (l : List α) (a : α)
    (h : l.length = cap) : pushBounded cap l a = l.tail ++ [a] := by
  unfold pushBounded
  rw [if_neg (show ¬l.length < cap by omega)]
  rw [show l.length + 1 - cap = 1 by omega, List.drop_one]

theorem startBlock_prebuffer (env : Env) (v : Visual) (vis : List (ℕ × Track))
    (s : LoopState) : (startBlock env v vis s).prebuffer = s.prebuffer := by
  unfold startBlock
  split_ifs <;> rfl

theorem duringBlock_prebuffer (env : Env) (v : Visual) (vis : List (ℕ × Track))
    (s : LoopState) : (duringBlock env v vis s).prebuffer = s.prebuffer ∨
      (duringBlock env v vis s).prebuffer = [] := by
  simp only [duringBlock]
  split_ifs <;> simp

theorem loopStep_prebuffer_le (env : Env) (s : LoopState)
    (h : s.prebuffer.length ≤ PREBUF_CAP) :
    (loopStep env s).prebuffer.length ≤ PREBUF_CAP := by
  cases hcap : env.capture with
  | none => simpa [loopStep, hcap] using h
  | some frame =>
    cases hdec : decodeFrame frame with
    | none => simpa [loopStep, hcap, hdec] using h
    | some vt =>
      simp only [loopStep, hcap, hdec]
      have key : ∀ (v : Visual) (vis : List (ℕ × Track)) (s2 : LoopState),
          s2.prebuffer.length ≤ PREBUF_CAP →
          (duringBlock env v vis (startBlock env v vis s2)).prebuffer.length ≤
            PREBUF_CAP := by
        intro v vis s2 h2
        rcases duringBlock_prebuffer env v vis (startBlock env v vis s2) with
          h3 | h3
        · rw [h3, startBlock_prebuffer]
          exact h2
        · rw [h3]
          simp
      exact key vt.1 _ _ (pushBounded_length _ (by norm_num [PREBUF_CAP, PRE_ROLL_SEC, CAMERA_FPS]) _ _ h)

/-- C2: the sink-handle invariant — the raw and annotated handles are
null together, and they are non-null exactly while recording — holds in
the initial state and is preserved by every iteration of the main loop,
so it holds at the top of every iteration; both sinks are opened together
on a successful Idle-to-Recording start and released together on
Recording-to-Idle or on a failed open. -/
theorem sink_handles_inv :
    (∀ thermal : Thermal, sinkInv (initialState thermal)) ∧
    (∀ (env : Env) (s : LoopState), sinkInv s → sinkInv (loopStep env s)) := by
  constructor
  · intro thermal
    exact ⟨rfl, rfl⟩
  · intro env s hs
    cases hcap : env.capture with
    | none => simpa [loopStep, hcap] using hs
    | some frame =>
      cases hdec : decodeFrame frame with
      | none => simpa [loopStep, hcap, hdec] using hs
      | some vt =>
        simp only [loopStep, hcap, hdec]
        exact duringBlock_inv _ _ _ _ (startBlock_inv _ _ _ _ ⟨hs.1, hs.2⟩)

/-- Witness for C2: the invariant concretely holds in the initial state
and is carried through one (idle, failed-read) iteration. -/
theorem sink_handles_inv_w :
    sinkInv (initialState (fun _ _ => 0)) ∧
    sinkInv (loopStep ⟨0, none, false, false, false, []⟩
      (initialState (fun _ _ => 0))) :=
  ⟨sink_handles_inv.1 (fun _ _ => 0),
   sink_handles_inv.2 ⟨0, none, false, false, false, []⟩ _ ⟨rfl, rfl⟩⟩

theorem step_fail_general (env : Env) (v : Visual) (vis : List (ℕ × Track))
    (s2 : LoopState) (hvis : vis ≠ []) (hrec : s2.recording = false)
    (hfail : env.rawOpenOk = false ∨ env.trkOpenOk = false) :
    (duringBlock env v vis (startBlock env v vis s2)).recording = false ∧
    (duringBlock env v vis (startBlock env v vis s2)).raw_out = none ∧
    (duringBlock env v vis (startBlock env v vis s2)).trk_out = none ∧
    (duringBlock env v vis (startBlock env v vis s2)).events_count =
      s2.events_count ∧
    (duringBlock env v vis (startBlock env v vis s2)).statusLog = s2.statusLog ∧
    (duringBlock env v vis (startBlock env v vis s2)).tracks = s2.tracks ∧
    (duringBlock env v vis (startBlock env v vis s2)).photos =
      s2.photos ++ [v] := by
  rw [startBlock_fail env v vis s2 hvis hrec hfail,
    duringBlock_idle env v vis _ rfl]
  exact ⟨rfl, rfl, rfl, rfl, rfl, rfl, rfl⟩

theorem step_success_general (env : Env) (v : Visual) (vis : List (ℕ × Track))
    (s2 : LoopState) (hvis : vis ≠ []) (hrec : s2.recording = false)
    (hraw : env.rawOpenOk = true) (htrk : env.trkOpenOk = true) :
    (duringBlock env v vis (startBlock env v vis s2)).recording = true ∧
    (duringBlock env v vis (startBlock env v vis s2)).raw_out =
      some (s2.prebuffer.map VFrame.plain ++ [VFrame.plain v]) ∧
    (duringBlock env v vis (startBlock env v vis s2)).trk_out =
      some (s2.prebuffer.map VFrame.plain ++ [VFrame.annot v vis]) ∧
    (duringBlock env v vis (startBlock env v vis s2)).events_count =
      s2.events_count + 1 ∧
    (duringBlock env v vis (startBlock env v vis s2)).statusLog =
      s2.statusLog ++ [⟨true, s2.events_count + 1⟩] ∧
    (∃ rest, (duringBlock env v vis (startBlock env v vis s2)).photos =
      s2.photos ++ v :: rest) := by
  rw [startBlock_success env v vis s2 hvis hrec hraw htrk]
  obtain ⟨d1, d2, d3, d4, d5, d6, d7⟩ :=
    duringBlock_rec_vis env v vis
      { s2 with raw_out := some (s2.prebuffer.map VFrame.plain)
                trk_out := some (s2.prebuffer.map VFrame.plain)
                recording := true
                last_seen := env.now
                last_photo_time := 0
                events_count := s2.events_count + 1
                statusLog := s2.statusLog ++ [⟨true, s2.events_count + 1⟩]
                photos := s2.photos ++ [v] }
      rfl hvis
  refine ⟨d1, ?_, ?_, d4, d5, ?_⟩
  · rw [d2]
    rfl
  · rw [d3]
    rfl
  · obtain ⟨rest, hrest⟩ := d7
    refine ⟨rest, ?_⟩
    rw [hrest]
    show (s2.photos ++ [v]) ++ rest = s2.photos ++ v :: rest
    rw [List.append_assoc]
    rfl

/-- C1 amended: when the loop is Idle, at least one track is visible (a
recording-start attempt) and opening either video sink fails, the
transition is rolled back: the pipeline stays Idle (recording false),
both sink handles are null afterwards (the partially opened one is
released), the event counter is unchanged, no telemetry is published,
nothing is written to either video sink, and the frame is still
processed for detection and tracking — but, contrary to one clause of
the claim, the start snapshot photo IS still captured from the current
frame, because the snapshot write (src/main.py lines 521-523) sits
outside the success branch of the writer-open check. The claim holds in
all other respects. -/
theorem start_failure_rollback (env : Env) (s : LoopState) (frame : RawFrame)
    (vt : Visual × Thermal)
    (hcap : env.capture = some frame) (hdec : decodeFrame frame = some vt)
    (hrec : s.recording = false)
    (hvis : (update_tracks (merge_detections env.dets) s.tracks env.now).2 ≠ [])
    (hfail : env.rawOpenOk = false ∨ env.trkOpenOk = false) :
    (loopStep env s).recording = false ∧
    (loopStep env s).raw_out = none ∧
    (loopStep env s).trk_out = none ∧
    (loopStep env s).events_count = s.events_count ∧
    (loopStep env s).statusLog = s.statusLog ∧
    (loopStep env s).tracks =
      (update_tracks (merge_detections env.dets) s.tracks env.now).1 ∧
    (loopStep env s).photos = s.photos ++ [vt.1] := by
  have hstep : loopStep env s =
      duringBlock env vt.1
        (update_tracks (merge_detections env.dets) s.tracks env.now).2
        (startBlock env vt.1
          (update_tracks (merge_detections env.dets) s.tracks env.now).2
          { s with
            background := updateBackground vt.2
              (if env.resetFlag then fun r c => ((vt.2 r c : ℚ))
               else s.background)
            prebuffer := pushBounded PREBUF_CAP s.prebuffer vt.1
            tracks :=
              (update_tracks (merge_detections env.dets) s.tracks env.now).1 }) := by
    simp only [loopStep, hcap, hdec]
  rw [hstep]
  exact step_fail_general env vt.1
    (update_tracks (merge_detections env.dets) s.tracks env.now).2
    { s with
      background := updateBackground vt.2
        (if env.resetFlag then fun r c => ((vt.2 r c : ℚ)) else s.background)
      prebuffer := pushBounded PREBUF_CAP s.prebuffer vt.1
      tracks := (update_tracks (merge_detections env.dets) s.tracks env.now).1 }
    hvis hrec hfail

/-- C1 counterexample: a concrete Idle state with a visible detection
and a failing raw-writer open. The transition is aborted (recording
stays false), yet the photos list grows from empty to one entry: the
current frame IS consumed for a snapshot photo, refuting the claim's
clause that nothing derived from the frame is written to a video sink,
snapshot photo, or status file. -/
theorem start_failure_rollback_cex :
    (initialState (fun _ _ => 0)).recording = false ∧
    (initialState (fun _ _ => 0)).photos.length = 0 ∧
    (update_tracks (merge_detections [⟨⟨10,10,2,2⟩, 11, 11⟩]) [] 0).2 ≠ [] ∧
    (loopStep ⟨0, some ⟨384, 256, 2, fun _ _ _ => 0⟩, false, false, true,
        [⟨⟨10,10,2,2⟩, 11, 11⟩]⟩
      (initialState (fun _ _ => 0))).recording = false ∧
    (loopStep ⟨0, some ⟨384, 256, 2, fun _ _ _ => 0⟩, false, false, true,
        [⟨⟨10,10,2,2⟩, 11, 11⟩]⟩
      (initialState (fun _ _ => 0))).photos.length = 1 := by
  refine ⟨rfl, rfl, by with_unfolding_all decide, ?_, ?_⟩
  · with_unfolding_all rfl
  · with_unfolding_all rfl

/-- Witness for the amended C1 theorem at the concrete failing-open
scenario: the loop stays Idle and the telemetry log is untouched. -/
theorem start_failure_rollback_w :
    (loopStep ⟨0, some ⟨384, 256, 2, fun _ _ _ => 0⟩, false, false, true,
        [⟨⟨10,10,2,2⟩, 11, 11⟩]⟩
      (initialState (fun _ _ => 0))).recording = false ∧
    (loopStep ⟨0, some ⟨384, 256, 2, fun _ _ _ => 0⟩, false, false, true,
        [⟨⟨10,10,2,2⟩, 11, 11⟩]⟩
      (initialState (fun _ _ => 0))).statusLog =
      (initialState (fun _ _ => 0)).statusLog :=
  ⟨(start_failure_rollback _ _ ⟨384, 256, 2, fun _ _ _ => 0⟩ _ rfl rfl rfl
      (by with_unfolding_all decide) (Or.inl rfl)).1,
   (start_failure_rollback _ _ ⟨384, 256, 2, fun _ _ _ => 0⟩ _ rfl rfl rfl
      (by with_unfolding_all decide) (Or.inl rfl)).2.2.2.2.1⟩

/-- C3: on a successful Idle-to-Recording transition the entire pre-roll
buffer (to which the current frame was just appended) is flushed in FIFO
order into both sinks, and the frames written to each sink are exactly
that flush followed by the current frame (raw to the raw sink, the
annotated copy to the tracked sink); a snapshot photo is captured, the
event counter increases by exactly one, and telemetry with
recording = true is published. In addition (the buffer clauses of the
claim): pushing onto a full pre-roll buffer evicts the oldest frame, the
buffer never exceeds PRE_ROLL_SEC * CAMERA_FPS frames, and this bound is
preserved by every loop iteration. -/
theorem start_success_flush (env : Env) (s : LoopState) (frame : RawFrame)
    (vt : Visual × Thermal)
    (hcap : env.capture = some frame) (hdec : decodeFrame frame = some vt)
    (hrec : s.recording = false)
    (hvis : (update_tracks (merge_detections env.dets) s.tracks env.now).2 ≠ [])
    (hraw : env.rawOpenOk = true) (htrk : env.trkOpenOk = true) :
    (loopStep env s).recording = true ∧
    (loopStep env s).raw_out =
      some ((pushBounded PREBUF_CAP s.prebuffer vt.1).map VFrame.plain ++
        [VFrame.plain vt.1]) ∧
    (loopStep env s).trk_out =
      some ((pushBounded PREBUF_CAP s.prebuffer vt.1).map VFrame.plain ++
        [VFrame.annot vt.1
          (update_tracks (merge_detections env.dets) s.tracks env.now).2]) ∧
    (loopStep env s).events_count = s.events_count + 1 ∧
    (loopStep env s).statusLog = s.statusLog ++ [⟨true, s.events_count + 1⟩] ∧
    (∃ rest, (loopStep env s).photos = s.photos ++ vt.1 :: rest) ∧
    (∀ (l : List Visual) (a : Visual), l.length = PREBUF_CAP →
      pushBounded PREBUF_CAP l a = l.tail ++ [a]) ∧
    (∀ (l : List Visual) (a : Visual), l.length ≤ PREBUF_CAP →
      (pushBounded PREBUF_CAP l a).length ≤ PREBUF_CAP) ∧
    (∀ (env2 : Env) (s2 : LoopState), s2.prebuffer.length ≤ PREBUF_CAP →
      (loopStep env2 s2).prebuffer.length ≤ PREBUF_CAP) := by
  have hstep : loopStep env s =
      duringBlock env vt.1
        (update_tracks (merge_detections env.dets) s.tracks env.now).2
        (startBlock env vt.1
          (update_tracks (merge_detections env.dets) s.tracks env.now).2
          { s with
            background := updateBackground vt.2
              (if env.resetFlag then fun r c => ((vt.2 r c : ℚ))
               else s.background)
            prebuffer := pushBounded PREBUF_CAP s.prebuffer vt.1
            tracks :=
              (update_tracks (merge_detections env.dets) s.tracks env.now).1 }) := by
    simp only [loopStep, hcap, hdec]
  obtain ⟨k1, k2, k3, k4, k5, k6⟩ := step_success_general env vt.1
    (update_tracks (merge_detections env.dets) s.tracks env.now).2
    { s with
      background := updateBackground vt.2
        (if env.resetFlag then fun r c => ((vt.2 r c : ℚ)) else s.background)
      prebuffer := pushBounded PREBUF_CAP s.prebuffer vt.1
      tracks := (update_tracks (merge_detections env.dets) s.tracks env.now).1 }
    hvis hrec hraw htrk
  rw [hstep]
  exact ⟨k1, k2, k3, k4, k5, k6,
    fun l a h => pushBounded_evict _ l a h,
    fun l a h => pushBounded_length _
      (by norm_num [PREBUF_CAP, PRE_ROLL_SEC, CAMERA_FPS]) l a h,
    fun env2 s2 h => loopStep_prebuffer_le env2 s2 h⟩

/-- Witness for C3 at a concrete successful start (both codec opens
succeed, one visible detection): the pipeline records, the counter goes
from 0 to 1, and the telemetry log gains the recording = true entry. -/
theorem start_success_flush_w :
    (loopStep ⟨0, some ⟨384, 256, 2, fun _ _ _ => 0⟩, false, true, true,
        [⟨⟨10,10,2,2⟩, 11, 11⟩]⟩
      (initialState (fun _ _ => 0))).recording = true ∧
    (loopStep ⟨0, some ⟨384, 256, 2, fun _ _ _ => 0⟩, false, true, true,
        [⟨⟨10,10,2,2⟩, 11, 11⟩]⟩
      (initialState (fun _ _ => 0))).events_count = 1 :=
  ⟨(start_success_flush _ _ ⟨384, 256, 2, fun _ _ _ => 0⟩ _ rfl rfl rfl
      (by with_unfolding_all decide) rfl rfl).1,
   (start_success_flush _ _ ⟨384, 256, 2, fun _ _ _ => 0⟩ _ rfl rfl rfl
      (by with_unfolding_all decide) rfl rfl).2.2.2.1⟩

/-- Witness for C5 at a concrete input: the single-detection output has
its centroid at its box center and is a fixpoint of merge_detections. -/
theorem merge_detections_fixpoint_w :
    (mkDet ⟨0,0,2,2⟩).cx = centerX (mkDet ⟨0,0,2,2⟩).box ∧
    merge_detections (merge_detections [⟨⟨0,0,2,2⟩, 1, 1⟩]) =
      merge_detections [⟨⟨0,0,2,2⟩, 1, 1⟩] :=
  ⟨((merge_detections_fixpoint [⟨⟨0,0,2,2⟩, 1, 1⟩]).2.1 (mkDet ⟨0,0,2,2⟩)
      (by with_unfolding_all decide)).1,
   (merge_detections_fixpoint [⟨⟨0,0,2,2⟩, 1, 1⟩]).2.2⟩
